import Mathlib

/-!
Verification development for the Texas Hold'em table engine in
`src/server/server.ts` (Solana-gated poker demo).

The poker engine is embedded shallowly: every function below mirrors the
corresponding TypeScript function of the `Table` class and its card-evaluation
helpers.  I/O (socket broadcast, Redis persistence, Prisma writes, timers) is
dropped; state-mutating methods become pure functions `Table → Table`.  JS
numbers holding chip counts and indices are modelled as `Int` (all arithmetic
in the source stays on integers); `Math.floor(a / b)` becomes `Int.fdiv`.
The shuffled deck produced by `shuffle(fullDeck())` is passed in as an explicit
parameter, since shuffling is the only source of nondeterminism.
-/

set_option maxHeartbeats 2000000
set_option maxRecDepth 4000

namespace Poker

/-- Configuration constants, at their defaults from the source's `process.env`
fallbacks (`SMALL_BLIND=1`, `BIG_BLIND=2`, `SEAT_COUNT=6`,
`MIN_PLAYERS_TO_START=2`, `ACTION_TIMEOUT_MS=20000`). -/
def SMALL_BLIND : Int := 1

def BIG_BLIND : Int := 2

def SEAT_COUNT : Nat := 6

def MIN_PLAYERS_TO_START : Nat := 2

def ACTION_TIMEOUT_MS : Int := 20000

/-- Suits `"s" | "h" | "d" | "c"` from the source. -/
inductive Suit where
  | s
  | h
  | d
  | c
deriving DecidableEq, Repr, Fintype

/-- A card `"<rank><suit>"`; rank 2..14 with 14 = Ace (source `RANKS`). -/
structure Card where
  r : Nat
  s : Suit
deriving DecidableEq, Repr

/-- Source `RANKS` array. -/
def RANKS : List Nat := [2, 3, 4, 5, 6, 7, 8, 9, 10, 11, 12, 13, 14]

/-- Source `SUITS` array. -/
def SUITS : List Suit := [.s, .h, .d, .c]

/-- Source `fullDeck()`: for each rank, each suit, in order. -/
def fullDeck : List Card :=
  RANKS.flatMap (fun r => SUITS.map (fun su => ⟨r, su⟩))

/-- Walk of `Array.from(new Set(xs))`: keep each element's first occurrence,
skipping anything already seen. -/
def dedupKeepFirstAux {α : Type} [DecidableEq α] (seen : List α) : List α → List α
  | [] => []
  | x :: xs =>
    if x ∈ seen then dedupKeepFirstAux seen xs
    else x :: dedupKeepFirstAux (x :: seen) xs

/-- First-occurrence deduplication, the order `Array.from(new Set(xs))`
produces in JS. -/
def dedupKeepFirst {α : Type} [DecidableEq α] (l : List α) : List α :=
  dedupKeepFirstAux [] l

/-- Sign of the first positive entry, i.e. the source's comparison loop run
against an exhausted right-hand vector (every `b[i] ?? 0` is 0). -/
def firstPositiveSign : List Nat → Int
  | [] => 0
  | x :: xs => if 0 < x then 1 else firstPositiveSign xs

/-- Source `compareEval`: lexicographic comparison of evaluation vectors,
positions missing on one side read as 0 (`a[i] ?? 0`).  When the left vector
is exhausted the remaining loop compares zeros against the right entries,
which is `-(firstPositiveSign bs)`. -/
def compareEval : List Nat → List Nat → Int
  | [], bs => -(firstPositiveSign bs)
  | a :: as, [] => if 0 < a then 1 else compareEval as []
  | a :: as, b :: bs => if b < a then 1 else if a < b then -1 else compareEval as bs

/-- Straight detection of `evaluate5` on the descending duplicate-free rank
list: five distinct ranks that are consecutive, or the wheel `[14,5,4,3,2]`
(top rank 5).  Returns `(isStraight, topStraight)`; `topStraight` is the 0 the
source initializes it to when no straight is found. -/
def straightInfo : List Nat → Bool × Nat
  | [a, b, c, d, e] =>
    if a == b + 1 && b == c + 1 && c == d + 1 && d == e + 1 then (true, a)
    else if [a, b, c, d, e] = [14, 5, 4, 3, 2] then (true, 5)
    else (false, 0)
  | _ => (false, 0)

/-- Source `evaluate5`: category vector of a 5-card hand.  The JS stable sort
by descending rank is modelled with `List.insertionSort`; stability is
irrelevant here because only the rank sequence and the all-equal test on suits
are consumed.  `Object.entries` of the rank-count record iterates numeric keys
in ascending order, hence the ascending sort before counting. -/
def evaluate5 (cards : List Card) : List Nat :=
  let ps := List.insertionSort (fun a b : Card => b.r ≤ a.r) cards
  let ranks := ps.map (·.r)
  let suits := ps.map (·.s)
  let isFlush : Bool :=
    match suits with
    | [] => true
    | s0 :: _ => suits.all (fun x => x = s0)
  let sortedUnique := List.insertionSort (fun a b : Nat => b ≤ a) (dedupKeepFirst ranks)
  let si := straightInfo sortedUnique
  let isStraight := si.1
  let topStraight := si.2
  let entries :=
    (List.insertionSort (fun a b : Nat => a ≤ b) (dedupKeepFirst ranks)).map
      (fun r => (r, ranks.count r))
  let byCount :=
    List.insertionSort
      (fun a b : Nat × Nat => b.2 < a.2 ∨ (b.2 = a.2 ∧ b.1 ≤ a.1)) entries
  match byCount with
  | [] => []
  | (r0, c0) :: rest =>
    let secondIs2 : Bool :=
      match rest with
      | (_, c1) :: _ => c1 == 2
      | [] => false
    if isStraight && isFlush then [8, topStraight]
    else if c0 == 4 then [7, r0, (rest.map Prod.fst).headD 0]
    else if c0 == 3 && secondIs2 then [6, r0, (rest.map Prod.fst).headD 0]
    else if isFlush then 5 :: ranks
    else if isStraight then [4, topStraight]
    else if c0 == 3 then 3 :: r0 :: (rest.map Prod.fst).take 2
    else if c0 == 2 && secondIs2 then
      [2, r0, (rest.map Prod.fst).headD 0, ((rest.map Prod.fst).drop 1).headD 0]
    else if c0 == 2 then 1 :: r0 :: (rest.map Prod.fst).take 3
    else 0 :: ranks

/-- Source `combinations(arr, k)`: k-element subsequences in the source's
recursion order (earliest index chosen first). -/
def combinations {α : Type} : Nat → List α → List (List α)
  | 0, _ => [[]]
  | _ + 1, [] => []
  | k + 1, x :: xs => ((combinations k xs).map (fun c => x :: c)) ++ combinations (k + 1) xs

/-- Source `bestHandFromSeven`, evaluation component: fold over the 21
5-card combinations keeping the first strictly best evaluation.  The
`bestHand` card list the source also returns is never consumed by the engine
and is omitted. -/
def bestEvalFromSeven (cards7 : List Card) : List Nat :=
  ((combinations 5 cards7).foldl
    (fun best h =>
      let e := evaluate5 h
      match best with
      | none => some e
      | some b => if 0 < compareEval e b then some e else some b)
    none).getD []

/-- Stage of the hand, source union type
`"waiting"|"preflop"|"flop"|"turn"|"river"|"showdown"`. -/
inductive Stage where
  | waiting
  | preflop
  | flop
  | turn
  | river
  | showdown
deriving DecidableEq, Repr

/-- Source `Seat` record.  `socketId`/`pubkey` are the source's
optional-string fields; `allIn?` defaults to `false` everywhere it is read
(`s.allIn ?? false`), so it is modelled as a plain `Bool`;
`reconnectTimeout` is an optional timestamp. -/
structure Seat where
  socketId : Option String
  pubkey : Option String
  chips : Int
  currentBet : Int
  totalContributed : Int
  folded : Bool
  holeCards : List Card
  active : Bool
  allIn : Bool
  reconnectTimeout : Option Int
deriving DecidableEq, Repr

/-- Source `Table` class state (the `actionTimer` handle is I/O and dropped). -/
structure Table where
  id : String
  seats : List (Option Seat)
  deck : List Card
  community : List Card
  pot : Int
  currentBetToCall : Int
  dealerIndex : Int
  currentTurnIndex : Int
  stage : Stage
  lastRaiseAmount : Int
deriving DecidableEq, Repr

/-- JS array read `seats[i]` with a possibly out-of-range or negative index:
`undefined` (here `none`) outside `[0, length)`. -/
def seatAt (seats : List (Option Seat)) (i : Int) : Option Seat :=
  if 0 ≤ i then (seats[i.toNat]?).getD none else none

/-- JS array write `seats[i] = s` for an in-range index (all writes in the
source use indices the surrounding code has validated). -/
def setSeatAt (seats : List (Option Seat)) (i : Int) (s : Option Seat) : List (Option Seat) :=
  if 0 ≤ i then seats.set i.toNat s else seats

/-- Source `Table` constructor. -/
def mkTable (id : String) (seatCount : Nat) : Table :=
  { id := id
    seats := List.replicate seatCount none
    deck := []
    community := []
    pot := 0
    currentBetToCall := 0
    dealerIndex := -1
    currentTurnIndex := 0
    stage := .waiting
    lastRaiseAmount := BIG_BLIND }

/-- Source `seatPlayer`: install a fresh seat with the default 1000-chip
stack. -/
def seatPlayer (t : Table) (index : Int) (pubkey socketId : String) : Table :=
  { t with
    seats := setSeatAt t.seats index (some
      { socketId := some socketId
        pubkey := some pubkey
        chips := 1000
        currentBet := 0
        totalContributed := 0
        folded := false
        holeCards := []
        active := true
        allIn := false
        reconnectTimeout := none }) }

/-- Source `socket.on("sit")` handler, after authentication: reject a bad
index, an occupied seat, or a banned player (the ban flag comes from the
external Prisma store and is passed in); otherwise seat the player.  Returns
the table plus the `error_msg` payload, if any. -/
def sitCommand (t : Table) (pubkey : String) (seatIndex : Int) (socketId : String)
    (banned : Bool) : Table × Option String :=
  if seatIndex < 0 ∨ (t.seats.length : Int) ≤ seatIndex then (t, some "bad seat")
  else if (seatAt t.seats seatIndex).isSome then (t, some "seat taken")
  else if banned then (t, some "banned")
  else (seatPlayer t seatIndex pubkey socketId, none)

/-- Source `readyPlayerCount`. -/
def readyPlayerCount (t : Table) : Nat :=
  (t.seats.filter (fun os =>
    match os with
    | some s => s.active
    | none => false)).length

/-- Source `nextOccupiedFrom`: first index `cand = (startIdx + i) % n` for
`i = 1..n` whose seat is occupied, active, unfolded and not all-in; `-1` if
none. -/
def nextOccupiedFrom (t : Table) (startIdx : Int) : Int :=
  let n := t.seats.length
  ((List.range n).filterMap (fun j =>
    let cand := (startIdx + ((j + 1 : Nat) : Int)) % (n : Int)
    match seatAt t.seats cand with
    | some s => if s.active && !s.folded && !s.allIn then some cand else none
    | none => none)).headD (-1)

/-- Source `nextOccupiedForBlinds`: like `nextOccupiedFrom` but only requires
`active`, and falls back to `startIdx` itself. -/
def nextOccupiedForBlinds (t : Table) (startIdx : Int) : Int :=
  let n := t.seats.length
  ((List.range n).filterMap (fun j =>
    let cand := (startIdx + ((j + 1 : Nat) : Int)) % (n : Int)
    match seatAt t.seats cand with
    | some s => if s.active then some cand else none
    | none => none)).headD startIdx

/-- Source `findNextAny`: occupied, active and unfolded (all-in allowed). -/
def findNextAny (t : Table) (startIdx : Int) : Int :=
  let n := t.seats.length
  ((List.range n).filterMap (fun j =>
    let cand := (startIdx + ((j + 1 : Nat) : Int)) % (n : Int)
    match seatAt t.seats cand with
    | some s => if s.active && !s.folded then some cand else none
    | none => none)).headD (-1)

/-- Source `isBettingRoundComplete`: every occupied seat that is neither
folded nor all-in has matched `currentBetToCall`. -/
def isBettingRoundComplete (t : Table) : Bool :=
  t.seats.all (fun os =>
    match os with
    | none => true
    | some s => s.folded || s.allIn || s.currentBet == t.currentBetToCall)

/-- Entry of the source's `results` array in `resolveShowdown` (the unused
`bestHand` card list is omitted). -/
structure ShowdownResult where
  idx : Nat
  bestEval : List Nat
  contrib : Int
deriving DecidableEq, Repr, Inhabited

/-- A pot with its eligible seat indices, as built in `resolveShowdown`. -/
structure Pot where
  amount : Int
  eligibleIndices : List Nat
deriving DecidableEq, Repr

/-- Source `activePlayers`: the occupied, unfolded seats with their indices,
in ascending seat order. -/
def activesOf (t : Table) : List (Nat × Seat) :=
  t.seats.enum.filterMap (fun p =>
    match p.2 with
    | some s => if s.folded then none else some (p.1, s)
    | none => none)

/-- Source `results`: evaluation and contribution of every unfolded seat. -/
def resultsOf (t : Table) : List ShowdownResult :=
  (activesOf t).map (fun p =>
    { idx := p.1
      bestEval := bestEvalFromSeven (p.2.holeCards ++ t.community)
      contrib := p.2.totalContributed })

/-- Source `contribs`: `Array.from(new Set(results.map(r => r.contrib)))`
sorted ascending. -/
def contribLevels (results : List ShowdownResult) : List Int :=
  List.insertionSort (fun a b : Int => a ≤ b) (dedupKeepFirst (results.map (·.contrib)))

/-- The eligible indices for one contribution level: unfolded seats whose
contribution reaches the level (`results` holds only unfolded seats). -/
def eligibleFor (results : List ShowdownResult) (level : Int) : List Nat :=
  (results.filter (fun r => level ≤ r.contrib)).map (·.idx)

/-- Source side-pot loop: walk the levels with the running `prev`, each pot
worth `(level - prev) * eligible.length`. -/
def buildPotsGo (results : List ShowdownResult) : Int → List Int → List Pot
  | _, [] => []
  | prev, level :: rest =>
    let eligible := eligibleFor results level
    { amount := (level - prev) * (eligible.length : Int), eligibleIndices := eligible }
      :: buildPotsGo results level rest

/-- The source's `pots` array. -/
def buildPots (results : List ShowdownResult) : List Pot :=
  buildPotsGo results 0 (contribLevels results)

/-- Stable insertion step for the showdown sort: a result is placed before the
first element it beats or ties (ties keep the earlier element first, matching
the stable `Array.prototype.sort` with comparator
`(a,b) => compareEval(b.bestEval, a.bestEval)`). -/
def insertResultDesc (x : ShowdownResult) : List ShowdownResult → List ShowdownResult
  | [] => [x]
  | y :: ys =>
    if 0 ≤ compareEval x.bestEval y.bestEval then x :: y :: ys
    else y :: insertResultDesc x ys

/-- Stable sort of showdown results by descending hand strength. -/
def sortResultsDesc : List ShowdownResult → List ShowdownResult
  | [] => []
  | x :: xs => insertResultDesc x (sortResultsDesc xs)

/-- Source winners computation for one pot: sort the eligible results by
descending strength, take the best evaluation, keep every tie.  (The source
indexes `eligResults[0]`; every pot built by `buildPots` has at least one
eligible seat, so the empty case is unreachable.) -/
def winnersForPot (results : List ShowdownResult) (pot : Pot) : List Nat :=
  let eligResults := results.filter (fun r => pot.eligibleIndices.contains r.idx)
  let sorted := sortResultsDesc eligResults
  match sorted with
  | [] => []
  | b :: _ => (sorted.filter (fun r => compareEval r.bestEval b.bestEval == 0)).map (·.idx)

/-- Chip credit `this.seats[w]!.chips += amt`.  The source's non-null
assertion holds because winners index occupied seats; on a missing seat this
model leaves the list unchanged. -/
def addChipsAt (seats : List (Option Seat)) (w : Nat) (amt : Int) : List (Option Seat) :=
  match seats[w]? with
  | some (some s) => seats.set w (some { s with chips := s.chips + amt })
  | _ => seats

/-- Source distribution of one pot: integer share to every winner
(`Math.floor` is `Int.fdiv`), positive leftover to `winners[0]`. -/
def distributePot (seats : List (Option Seat)) (amount : Int) (winners : List Nat) :
    List (Option Seat) :=
  let share := amount.fdiv (winners.length : Int)
  let seats1 := winners.foldl (fun acc w => addChipsAt acc w share) seats
  let leftover := amount - share * (winners.length : Int)
  if 0 < leftover then
    match winners with
    | [] => seats1
    | w0 :: _ => addChipsAt seats1 w0 leftover
  else seats1

/-- The source's per-pot distribution loop. -/
def distributeAll (seats : List (Option Seat)) (pots : List Pot)
    (winners : List (List Nat)) : List (Option Seat) :=
  (pots.zip winners).foldl (fun acc pw => distributePot acc pw.1.amount pw.2) seats

/-- Source `resetHand`. -/
def resetHand (t : Table) : Table :=
  { t with
    seats := t.seats.map (Option.map (fun s =>
      { s with currentBet := 0, totalContributed := 0, holeCards := [],
               folded := false, allIn := false }))
    community := []
    deck := []
    pot := 0
    currentBetToCall := 0
    stage := .waiting }

/-- Source `resolveShowdown` (the Prisma hand record and the broadcast are
external I/O; the delayed `startHandIfReady` is a separate later event). -/
def resolveShowdown (t : Table) : Table :=
  if (activesOf t).isEmpty then resetHand t
  else
    let results := resultsOf t
    let pots := buildPots results
    let winnersByPot := pots.map (fun pot => winnersForPot results pot)
    let seats := distributeAll t.seats pots winnersByPot
    { t with
      seats := seats
      stage := .waiting
      deck := []
      community := []
      pot := 0
      currentBetToCall := 0 }

/-- One `this.deck.pop()!` pushed onto the board; `k` of them in sequence
(the source's `community.push(pop, pop, pop)` evaluates left to right). -/
def dealCommunity (t : Table) (k : Nat) : Table :=
  (List.range k).foldl (fun acc _ =>
    let c := acc.deck.getLastD ⟨0, .s⟩
    { acc with deck := acc.deck.dropLast, community := acc.community ++ [c] }) t

/-- Tail of source `advanceStage` for non-river stages: reset the bet level
and raise increment, first to act is the next actionable seat after the
dealer (falling back to the dealer index itself). -/
def postStreetSetup (t : Table) : Table :=
  let t1 := { t with currentBetToCall := 0, lastRaiseAmount := BIG_BLIND }
  let first := nextOccupiedFrom t1 t1.dealerIndex
  { t1 with currentTurnIndex := if first = -1 then t1.dealerIndex else first }

/-- Source `advanceStage`: zero every `currentBet`, deal the street, move the
stage; at river enter showdown and resolve. -/
def advanceStage (t : Table) : Table :=
  let t0 := { t with seats := t.seats.map (Option.map (fun s : Seat => { s with currentBet := 0 })) }
  match t0.stage with
  | .preflop => postStreetSetup { dealCommunity t0 3 with stage := .flop }
  | .flop => postStreetSetup { dealCommunity t0 1 with stage := .turn }
  | .turn => postStreetSetup { dealCommunity t0 1 with stage := .river }
  | .river => resolveShowdown { t0 with stage := .showdown }
  | _ => postStreetSetup t0

/-- Client action messages `{ type: "fold"|"check"|"call"|"raise", amount? }`. -/
inductive PlayerAction where
  | fold
  | check
  | call
  | raise (amount : Option Int)
deriving DecidableEq, Repr

/-- Folding the acting seat (`seat.folded = true`). -/
def foldApplied (t : Table) (seatIndex : Int) (s : Seat) : Table :=
  { t with seats := setSeatAt t.seats seatIndex (some { s with folded := true }) }

/-- Turn-advancement tail of `handleAction`: find the next actionable seat;
when none exists fall back to `findNextAny`; advance the stage whenever the
betting round is complete. -/
def afterActionAdvance (t : Table) : Table :=
  let next := nextOccupiedFrom t t.currentTurnIndex
  if next = -1 then
    if isBettingRoundComplete t then advanceStage t
    else
      let next2 := findNextAny t t.currentTurnIndex
      if next2 = -1 then advanceStage t
      else
        let t' := { t with currentTurnIndex := next2 }
        if isBettingRoundComplete t' then advanceStage t' else t'
  else
    let t' := { t with currentTurnIndex := next }
    if isBettingRoundComplete t' then advanceStage t' else t'

/-- Source `handleAction`: guards (seat occupied, unfolded, not all-in, and
holding the turn), then the fold/check/call/raise semantics.  An illegal
check (bet to call outstanding) or a raise below
`max(lastRaiseAmount, BIG_BLIND)` returns with no state change (the source
only restarts the action timer, which is I/O). -/
def handleAction (t : Table) (seatIndex : Int) (action : PlayerAction) : Table :=
  match seatAt t.seats seatIndex with
  | none => t
  | some seat =>
    if seat.folded || seat.allIn then t
    else if t.currentTurnIndex ≠ seatIndex then t
    else
      match action with
      | .fold => afterActionAdvance (foldApplied t seatIndex seat)
      | .check =>
        if seat.currentBet ≠ t.currentBetToCall then t
        else afterActionAdvance t
      | .call =>
        let toCall := t.currentBetToCall - seat.currentBet
        let callAmount := min toCall seat.chips
        let s1 := { seat with
          chips := seat.chips - callAmount
          currentBet := seat.currentBet + callAmount
          totalContributed := seat.totalContributed + callAmount }
        let s2 := if s1.chips = 0 then { s1 with allIn := true } else s1
        afterActionAdvance
          { t with seats := setSeatAt t.seats seatIndex (some s2), pot := t.pot + callAmount }
      | .raise amt =>
        let raiseAmt := amt.getD 0
        let toCall := t.currentBetToCall - seat.currentBet
        let minRaise := max t.lastRaiseAmount BIG_BLIND
        if raiseAmt < minRaise then t
        else
          let totalInvest := toCall + raiseAmt
          let invest := min totalInvest seat.chips
          let s1 := { seat with
            chips := seat.chips - invest
            currentBet := seat.currentBet + invest
            totalContributed := seat.totalContributed + invest }
          let t1 := { t with seats := setSeatAt t.seats seatIndex (some s1), pot := t.pot + invest }
          let t2 :=
            if t1.currentBetToCall < s1.currentBet then
              { t1 with lastRaiseAmount := raiseAmt, currentBetToCall := s1.currentBet }
            else t1
          let t3 :=
            if s1.chips = 0 then
              { t2 with seats := setSeatAt t2.seats seatIndex (some { s1 with allIn := true }) }
            else t2
          afterActionAdvance t3

/-- Per-hand seat reset done at the top of `startHandIfReady`. -/
def resetSeatForHand (s : Seat) : Seat :=
  { s with currentBet := 0, folded := false, holeCards := [], totalContributed := 0, allIn := false }

/-- One round of hole-card dealing: for every seat index in order, an occupied
seat receives `this.deck.pop()!`. -/
def dealOneRound (t : Table) : Table :=
  (List.range t.seats.length).foldl (fun acc i =>
    match acc.seats[i]? with
    | some (some s) =>
      let c := acc.deck.getLastD ⟨0, .s⟩
      { acc with
        deck := acc.deck.dropLast
        seats := acc.seats.set i (some { s with holeCards := s.holeCards ++ [c] }) }
    | _ => acc) t

/-- Chips of the seat at `idx` (the source reads the seat through a non-null
assertion; 0 stands for the unreachable missing case). -/
def seatChips (t : Table) (idx : Int) : Int :=
  ((seatAt t.seats idx).map (·.chips)).getD 0

/-- Posting one blind: deduct `amount` (already clamped by the caller), bump
`currentBet`, `totalContributed` and the pot, and mark all-in on a zeroed
stack. -/
def payBlind (t : Table) (idx : Int) (amount : Int) : Table :=
  match seatAt t.seats idx with
  | some s =>
    let s1 := { s with
      chips := s.chips - amount
      currentBet := s.currentBet + amount
      totalContributed := s.totalContributed + amount }
    let s2 := if s1.chips = 0 then { s1 with allIn := true } else s1
    { t with seats := setSeatAt t.seats idx (some s2), pot := t.pot + amount }
  | none => t

/-- Source `startHandIfReady`, with the output of `shuffle(fullDeck())`
passed in.  The source computes both clamped blinds before mutating either
seat; since the hand only starts with at least two active seats, the
small-blind and big-blind seats differ and the sequential computation below
reads the same chip counts. -/
def startHandIfReady (t : Table) (shuffledDeck : List Card) : Table :=
  if t.stage ≠ .waiting then t
  else if readyPlayerCount t < MIN_PLAYERS_TO_START then t
  else
    let t1 := { t with
      deck := shuffledDeck
      community := []
      pot := 0
      currentBetToCall := 0
      stage := .preflop
      lastRaiseAmount := BIG_BLIND
      seats := t.seats.map (Option.map resetSeatForHand) }
    let t2 := dealOneRound (dealOneRound t1)
    let t3 := { t2 with dealerIndex := (t2.dealerIndex + 1) % (t2.seats.length : Int) }
    let sb := nextOccupiedForBlinds t3 t3.dealerIndex
    let bb := nextOccupiedForBlinds t3 sb
    let small := min SMALL_BLIND (seatChips t3 sb)
    let t4 := payBlind t3 sb small
    let big := min BIG_BLIND (seatChips t4 bb)
    let t5 := payBlind t4 bb big
    let t6 := { t5 with currentBetToCall := big }
    let first := nextOccupiedFrom t6 bb
    { t6 with currentTurnIndex := if first = -1 then bb else first }

/-- Public projection of a seat as assembled in `broadcastTableState`:
`holeCards`, `socketId` and `reconnectTimeout` are absent. -/
structure PublicSeat where
  pubkey : Option String
  chips : Int
  active : Bool
  folded : Bool
  currentBet : Int
  totalContributed : Int
  allIn : Bool
deriving DecidableEq, Repr

/-- The `table_state` payload of `broadcastTableState` (without the optional
`extras` spread, which is independent of the seats). -/
structure TableStatePayload where
  id : String
  seats : List (Option PublicSeat)
  community : List Card
  pot : Int
  stage : Stage
  currentBetToCall : Int
  currentTurnIndex : Int
  dealerIndex : Int
  lastRaiseAmount : Int
  actionTimeoutMs : Int
deriving DecidableEq, Repr

/-- Field selection for one public seat. -/
def publicSeatOf (s : Seat) : PublicSeat :=
  { pubkey := s.pubkey
    chips := s.chips
    active := s.active
    folded := s.folded
    currentBet := s.currentBet
    totalContributed := s.totalContributed
    allIn := s.allIn }

/-- The full public view `broadcastTableState` emits to the room. -/
def publicTableState (t : Table) : TableStatePayload :=
  { id := t.id
    seats := t.seats.map (Option.map publicSeatOf)
    community := t.community
    pot := t.pot
    stage := t.stage
    currentBetToCall := t.currentBetToCall
    currentTurnIndex := t.currentTurnIndex
    dealerIndex := t.dealerIndex
    lastRaiseAmount := t.lastRaiseAmount
    actionTimeoutMs := ACTION_TIMEOUT_MS }

/-- Claim-side restatement of one pot: for a `(level, prev)` pair the pot of
amount `(level - prev) * |eligible|` whose eligible set is exactly the
unfolded seats contributing at least `level`. -/
def potAtLevel (results : List ShowdownResult) (lp : Int × Int) : Pot :=
  { amount := (lp.1 - lp.2) * ((eligibleFor results lp.1).length : Int)
    eligibleIndices := eligibleFor results lp.1 }

/-- Chips of the seat at index `w`, `none` when the slot is empty or out of
range. -/
def chipsAt (seats : List (Option Seat)) (w : Nat) : Option Int :=
  ((seats[w]?).getD none).map (·.chips)

/-- Per-seat chip projection of the whole table. -/
def seatsChips (t : Table) : List (Option Int) :=
  t.seats.map (Option.map (·.chips))

/-- Number of occupied seats that are not folded. -/
def countUnfolded (t : Table) : Nat :=
  (t.seats.filter (fun os =>
    match os with
    | some s => !s.folded
    | none => false)).length

/-- Two seat slots that agree on everything except the private fields
`holeCards`, `socketId` and `reconnectTimeout`. -/
def SeatPublicAgree (o1 o2 : Option Seat) : Prop :=
  match o1, o2 with
  | none, none => True
  | some s1, some s2 =>
    s1.pubkey = s2.pubkey ∧ s1.chips = s2.chips ∧ s1.active = s2.active ∧
    s1.folded = s2.folded ∧ s1.currentBet = s2.currentBet ∧
    s1.totalContributed = s2.totalContributed ∧ s1.allIn = s2.allIn
  | _, _ => False

/-! Concrete scenario states used to settle the claims.  `tS1` replays the
spec's seed case S1: a six-seat table, participants at seats 0 and 1 with the
default 1000-chip stacks, and the deterministic deck `fullDeck` standing for
the shuffle outcome. -/

/-- Sum of chips over all occupied seats plus the pot. -/
def chipTotal (t : Table) : Int :=
  (t.seats.map (fun os => ((os.map (·.chips)).getD 0))).sum + t.pot

/-- Two accepted `sit` commands at seats 0 and 1. -/
def tS1_seated : Table :=
  (sitCommand ((sitCommand (mkTable "table-1" 6) "P0" 0 "sock0" false).1)
    "P1" 1 "sock1" false).1

/-- Hand started: dealer 0, small blind at seat 1, big blind at seat 0,
first to act seat 1. -/
def tS1_start : Table := startHandIfReady tS1_seated fullDeck

/-- The small-blind seat (index 1) of `tS1_start`, spelled out. -/
def tS1_sbSeat : Seat :=
  { socketId := some "sock1"
    pubkey := some "P1"
    chips := 999
    currentBet := 1
    totalContributed := 1
    folded := false
    holeCards := [⟨14, .d⟩, ⟨14, .s⟩]
    active := true
    allIn := false
    reconnectTimeout := none }

/-- S1 played out: the small blind folds preflop, then the lone remaining
seat checks through flop, turn and river, reaching showdown resolution. -/
def tS1_final : Table :=
  handleAction (handleAction (handleAction (handleAction tS1_start 1 .fold) 0 .check)
    0 .check) 0 .check

/-- Occupied seat for showdown scenarios. -/
def testSeat (pk : String) (chips contrib : Int) (folded : Bool) (hole : List Card) : Seat :=
  { socketId := some pk
    pubkey := some pk
    chips := chips
    currentBet := 0
    totalContributed := contrib
    folded := folded
    holeCards := hole
    active := true
    allIn := false
    reconnectTimeout := none }

/-- Showdown input with a folded seat that contributed 1 chip: seat 0 folded
after contributing 1, seat 1 unfolded with contribution 2. -/
def tC3 : Table :=
  { id := "table-1"
    seats := [some (testSeat "F" 999 1 true [⟨8, .s⟩, ⟨9, .h⟩]),
      some (testSeat "W" 998 2 false [⟨5, .h⟩, ⟨6, .h⟩]),
      none, none, none, none]
    deck := []
    community := [⟨2, .s⟩, ⟨9, .d⟩, ⟨11, .c⟩, ⟨13, .s⟩, ⟨3, .d⟩]
    pot := 3
    currentBetToCall := 0
    dealerIndex := 0
    currentTurnIndex := 1
    stage := .river
    lastRaiseAmount := BIG_BLIND }

/-- Showdown input with a 201-chip pot and two tied winners: seats 1 and 5
hold identical ace-king high hands, seat 3 (the dealer) loses.  Every seat
contributed 67, so the single pot is 201. -/
def tC7 : Table :=
  { id := "table-1"
    seats := [none,
      some (testSeat "A" 933 67 false [⟨14, .s⟩, ⟨13, .h⟩]),
      none,
      some (testSeat "B" 933 67 false [⟨4, .h⟩, ⟨5, .d⟩]),
      none,
      some (testSeat "C" 933 67 false [⟨14, .d⟩, ⟨13, .c⟩])]
    deck := []
    community := [⟨2, .s⟩, ⟨3, .h⟩, ⟨7, .d⟩, ⟨9, .c⟩, ⟨11, .s⟩]
    pot := 201
    currentBetToCall := 0
    dealerIndex := 3
    currentTurnIndex := 1
    stage := .river
    lastRaiseAmount := BIG_BLIND }

/-- Modelled from the spec: "the winner closest clockwise after the dealer" —
the first seat index strictly after the dealer (wrapping around the ring of
`n` seats) that belongs to the winner set. -/
def specClosestWinnerClockwise (dealer n : Nat) (ws : List Nat) : Option Nat :=
  ((List.range n).map (fun i => (dealer + 1 + i) % n)).find? (fun c => ws.contains c)

/-- A six-seat table with two fresh 1000-chip players at seats `i ≠ j` and the
pre-hand dealer cursor at `p - 1` (covering `-1` through `5`). -/
def twoSeatTable (i j : Fin 6) (p : Fin 7) : Table :=
  { (sitCommand ((sitCommand (mkTable "table-1" 6) "P0" ((i : Nat) : Int) "sockA" false).1)
      "P1" ((j : Nat) : Int) "sockB" false).1 with
    dealerIndex := ((p : Nat) : Int) - 1 }

/-- The table of `twoSeatTable` with the hand started on the deterministic
deck. -/
def huStart (i j : Fin 6) (p : Fin 7) : Table :=
  startHandIfReady (twoSeatTable i j p) fullDeck

/-- Small-blind index the engine computes for `huStart`. -/
def huSb (i j : Fin 6) (p : Fin 7) : Int :=
  nextOccupiedForBlinds (huStart i j p) (huStart i j p).dealerIndex

/-- Big-blind index the engine computes for `huStart`. -/
def huBb (i j : Fin 6) (p : Fin 7) : Int :=
  nextOccupiedForBlinds (huStart i j p) (huSb i j p)

/-- Heads-up blind layout the code actually produces: the first occupied seat
after the dealer cursor posts the small blind and acts first preflop and
postflop; the other occupied seat posts the big blind; when the dealer cursor
lands on an occupied seat, that seat is the big blind. -/
abbrev headsUpStartProp (i j : Fin 6) (p : Fin 7) : Prop :=
  (seatAt (huStart i j p).seats (huSb i j p)).map (·.currentBet) = some SMALL_BLIND ∧
  (seatAt (huStart i j p).seats (huBb i j p)).map (·.currentBet) = some BIG_BLIND ∧
  huSb i j p ≠ (huStart i j p).dealerIndex ∧
  (huStart i j p).currentTurnIndex = huSb i j p ∧
  (((huStart i j p).dealerIndex = ((i : Nat) : Int) ∨
      (huStart i j p).dealerIndex = ((j : Nat) : Int)) →
    huBb i j p = (huStart i j p).dealerIndex) ∧
  (handleAction (huStart i j p) (huSb i j p) .call).stage = Stage.flop ∧
  (handleAction (huStart i j p) (huSb i j p) .call).currentTurnIndex = huSb i j p

/-- A wheel hand with one suit per card position. -/
def wheelHand (s1 s2 s3 s4 s5 : Suit) : List Card :=
  [⟨14, s1⟩, ⟨5, s2⟩, ⟨4, s3⟩, ⟨3, s4⟩, ⟨2, s5⟩]

/-- Every way to insert `x` into a list (claim-side enumeration helper). -/
def insertEverywhere {α : Type} (x : α) : List α → List (List α)
  | [] => [[x]]
  | y :: ys => (x :: y :: ys) :: (insertEverywhere x ys).map (fun l => y :: l)

/-- All orderings of a list (claim-side enumeration helper, structural so
that it evaluates in the kernel). -/
def allOrderings {α : Type} : List α → List (List α)
  | [] => [[]]
  | x :: xs => (allOrderings xs).flatMap (insertEverywhere x)

/-- Table used for the public-view witness. -/
def t10a : Table :=
  { id := "table-1"
    seats := [some (testSeat "P0" 998 2 false [⟨14, .s⟩, ⟨13, .s⟩]), none]
    deck := [⟨2, .c⟩]
    community := []
    pot := 2
    currentBetToCall := 2
    dealerIndex := 0
    currentTurnIndex := 0
    stage := .preflop
    lastRaiseAmount := BIG_BLIND }

/-- `t10a` with different hole cards, socket handle and reconnect deadline at
seat 0. -/
def t10b : Table :=
  { t10a with
    seats := [some { testSeat "P0" 998 2 false [⟨7, .d⟩, ⟨8, .d⟩] with
      socketId := some "other-socket", reconnectTimeout := some 123456 }, none] }

/-! Helper lemmas about the embedded definitions. -/

theorem dedupKeepFirstAux_mem {α : Type} [DecidableEq α] (a : α) :
    ∀ (l seen : List α), (a ∈ dedupKeepFirstAux seen l ↔ a ∈ l ∧ a ∉ seen) := by
  intro l
  induction l with
  | nil => intro seen; simp [dedupKeepFirstAux]
  | cons x xs ih =>
    intro seen
    by_cases hx : x ∈ seen
    · rw [dedupKeepFirstAux, if_pos hx, ih seen, List.mem_cons]
      constructor
      · rintro ⟨h1, h2⟩
        exact ⟨Or.inr h1, h2⟩
      · rintro ⟨rfl | h1, h2⟩
        · exact absurd hx h2
        · exact ⟨h1, h2⟩
    · rw [dedupKeepFirstAux, if_neg hx, List.mem_cons, ih (x :: seen), List.mem_cons,
        List.mem_cons]
      by_cases hax : a = x
      · subst hax
        simp [hx]
      · tauto

theorem dedupKeepFirst_mem {α : Type} [DecidableEq α] (a : α) :
    ∀ l : List α, (a ∈ dedupKeepFirst l ↔ a ∈ l) := by
  intro l
  rw [dedupKeepFirst, dedupKeepFirstAux_mem]
  simp

theorem dedupKeepFirstAux_nodup {α : Type} [DecidableEq α] :
    ∀ (l seen : List α), (dedupKeepFirstAux seen l).Nodup := by
  intro l
  induction l with
  | nil => intro seen; simp [dedupKeepFirstAux]
  | cons x xs ih =>
    intro seen
    by_cases hx : x ∈ seen
    · rw [dedupKeepFirstAux, if_pos hx]
      exact ih seen
    · rw [dedupKeepFirstAux, if_neg hx]
      refine List.nodup_cons.mpr ⟨?_, ih (x :: seen)⟩
      intro hmem
      exact ((dedupKeepFirstAux_mem x xs (x :: seen)).mp hmem).2 (List.mem_cons_self _ _)

theorem dedupKeepFirst_nodup {α : Type} [DecidableEq α] :
    ∀ l : List α, (dedupKeepFirst l).Nodup := by
  intro l
  exact dedupKeepFirstAux_nodup l []

theorem contribLevels_mem (results : List ShowdownResult) (x : Int) :
    x ∈ contribLevels results ↔ x ∈ results.map (·.contrib) :=
  ((List.perm_insertionSort _ _).mem_iff).trans (dedupKeepFirst_mem _ _)

theorem contribLevels_pairwise_lt (results : List ShowdownResult) :
    (contribLevels results).Pairwise (· < ·) := by
  have hs : (contribLevels results).Pairwise (fun a b : Int => a ≤ b) :=
    List.sorted_insertionSort _ _
  have hn : (contribLevels results).Pairwise (fun a b : Int => a ≠ b) :=
    ((List.perm_insertionSort _ _).nodup_iff).mpr (dedupKeepFirst_nodup _)
  exact (hs.and hn).imp (fun h => lt_of_le_of_ne h.1 h.2)

theorem sum_map_add_split {α : Type} (l : List α) (f g : α → Int) :
    (l.map (fun a => f a + g a)).sum = (l.map f).sum + (l.map g).sum := by
  induction l with
  | nil => simp
  | cons x xs ih => simp [ih]; ring

theorem filter_length_mul {α : Type} (l : List α) (p : α → Bool) (k : Int) :
    ((l.filter p).length : Int) * k = (l.map (fun a => if p a then k else 0)).sum := by
  induction l with
  | nil => simp
  | cons x xs ih =>
    by_cases h : p x
    · simp only [List.filter_cons, h, if_true, List.length_cons, List.map_cons,
        List.sum_cons]
      push_cast
      rw [← ih]
      ring
    · simp [List.filter_cons, h, ih]

theorem buildPotsGo_sum (results : List ShowdownResult) :
    ∀ (levels : List Int) (prev : Int),
      levels.Pairwise (· < ·) →
      (∀ l ∈ levels, prev ≤ l) →
      (∀ r ∈ results, r.contrib ≤ prev ∨ r.contrib ∈ levels) →
      ((buildPotsGo results prev levels).map (·.amount)).sum
        = (results.map (fun r => max (r.contrib - prev) 0)).sum := by
  intro levels
  induction levels with
  | nil =>
    intro prev _ _ hmem
    simp only [buildPotsGo, List.map_nil, List.sum_nil]
    symm
    apply List.sum_eq_zero
    intro x hx
    obtain ⟨r, hr, rfl⟩ := List.mem_map.mp hx
    rcases hmem r hr with h | h
    · exact max_eq_right (by omega)
    · cases h
  | cons level rest ih =>
    intro prev hpw hge hmem
    obtain ⟨hlt, hpw'⟩ := List.pairwise_cons.mp hpw
    have hprev : prev ≤ level := hge level (List.mem_cons_self _ _)
    have hge' : ∀ l ∈ rest, level ≤ l := fun l hl => le_of_lt (hlt l hl)
    have hmem' : ∀ r ∈ results, r.contrib ≤ level ∨ r.contrib ∈ rest := by
      intro r hr
      rcases hmem r hr with h | h
      · exact Or.inl (le_trans h hprev)
      · rcases List.mem_cons.mp h with rfl | h2
        · exact Or.inl le_rfl
        · exact Or.inr h2
    rw [buildPotsGo]
    simp only [List.map_cons, List.sum_cons]
    rw [ih level hpw' hge' hmem']
    have hlen : ((eligibleFor results level).length : Int)
        = ((results.filter (fun r => level ≤ r.contrib)).length : Int) := by
      simp [eligibleFor]
    rw [hlen, mul_comm (level - prev),
      filter_length_mul results (fun r => level ≤ r.contrib) (level - prev),
      ← sum_map_add_split]
    apply congrArg List.sum
    apply List.map_congr_left
    intro r hr
    by_cases hc : level ≤ r.contrib
    · have h1 : max (r.contrib - level) 0 = r.contrib - level := max_eq_left (by omega)
      have h2 : max (r.contrib - prev) 0 = r.contrib - prev := max_eq_left (by omega)
      simp only [hc, if_true, decide_eq_true_eq, if_pos]
      rw [h1, h2]
      ring
    · have hle : r.contrib ≤ prev := by
        rcases hmem r hr with h | h
        · exact h
        · rcases List.mem_cons.mp h with heq | hrest
          · omega
          · exact absurd (hlt _ hrest) (by omega)
      have h1 : max (r.contrib - level) 0 = 0 := max_eq_right (by omega)
      have h2 : max (r.contrib - prev) 0 = 0 := max_eq_right (by omega)
      simp only [hc, decide_eq_true_eq, if_neg, if_false]
      rw [h1, h2]
      ring

theorem buildPotsGo_zip (results : List ShowdownResult) :
    ∀ (levels : List Int) (prev : Int),
      buildPotsGo results prev levels
        = (levels.zip (prev :: levels)).map (potAtLevel results) := by
  intro levels
  induction levels with
  | nil => intro prev; rfl
  | cons l rest ih =>
    intro prev
    rw [buildPotsGo, List.zip_cons_cons, List.map_cons, ih l]
    rfl

theorem addChipsAt_getElem?_ne (seats : List (Option Seat)) (w w' : Nat) (amt : Int)
    (h : w ≠ w') : (addChipsAt seats w amt)[w']? = seats[w']? := by
  unfold addChipsAt
  cases hw : seats[w]? with
  | none => rfl
  | some os =>
    cases os with
    | none => rfl
    | some s => exact List.getElem?_set_ne h

theorem addChipsAt_getElem?_self (seats : List (Option Seat)) (w : Nat) (amt : Int)
    (s : Seat) (h : seats[w]? = some (some s)) :
    (addChipsAt seats w amt)[w]? = some (some { s with chips := s.chips + amt }) := by
  unfold addChipsAt
  rw [h]
  obtain ⟨hlt, -⟩ := List.getElem?_eq_some_iff.mp h
  exact List.getElem?_set_eq_of_lt _ hlt

theorem creditLoop_getElem? (share : Int) :
    ∀ (winners : List Nat) (seats : List (Option Seat)) (w : Nat),
      (w ∉ winners →
        (winners.foldl (fun acc x => addChipsAt acc x share) seats)[w]? = seats[w]?) ∧
      (winners.Nodup → w ∈ winners → ∀ s : Seat, seats[w]? = some (some s) →
        (winners.foldl (fun acc x => addChipsAt acc x share) seats)[w]?
          = some (some { s with chips := s.chips + share })) := by
  intro winners
  induction winners with
  | nil =>
    intro seats w
    exact ⟨fun _ => rfl, fun _ h => absurd h (List.not_mem_nil w)⟩
  | cons x xs ih =>
    intro seats w
    simp only [List.foldl_cons]
    constructor
    · intro hnot
      have hne : x ≠ w := fun he => hnot (he ▸ List.mem_cons_self _ _)
      have hnxs : w ∉ xs := fun hm => hnot (List.mem_cons_of_mem _ hm)
      rw [(ih (addChipsAt seats x share) w).1 hnxs, addChipsAt_getElem?_ne _ _ _ _ hne]
    · intro hnd hmem s hs
      obtain ⟨hxnot, hnd'⟩ := List.nodup_cons.mp hnd
      rcases List.mem_cons.mp hmem with rfl | hmw
      · rw [(ih (addChipsAt seats w share) w).1 hxnot]
        exact addChipsAt_getElem?_self seats w share s hs
      · have hne : x ≠ w := fun he => hxnot (he ▸ hmw)
        exact (ih (addChipsAt seats x share) w).2 hnd' hmw s
          (by rw [addChipsAt_getElem?_ne _ _ _ _ hne]; exact hs)

theorem distributePot_eq (seats : List (Option Seat)) (amount : Int) (winners : List Nat) :
    distributePot seats amount winners =
      (if 0 < amount - amount.fdiv (winners.length : Int) * (winners.length : Int) then
        match winners with
        | [] =>
          winners.foldl (fun acc w => addChipsAt acc w (amount.fdiv (winners.length : Int))) seats
        | w0 :: _ =>
          addChipsAt
            (winners.foldl (fun acc w => addChipsAt acc w (amount.fdiv (winners.length : Int)))
              seats)
            w0 (amount - amount.fdiv (winners.length : Int) * (winners.length : Int))
      else
        winners.foldl (fun acc w => addChipsAt acc w (amount.fdiv (winners.length : Int))) seats) :=
  rfl

theorem distributePot_untouched (seats : List (Option Seat)) (amount : Int)
    (winners : List Nat) (w : Nat) (h : w ∉ winners) :
    chipsAt (distributePot seats amount winners) w = chipsAt seats w := by
  have hloop := (creditLoop_getElem? (amount.fdiv (winners.length : Int)) winners seats w).1 h
  rw [distributePot_eq]
  by_cases hpos : 0 < amount - amount.fdiv (winners.length : Int) * (winners.length : Int)
  · rw [if_pos hpos]
    cases winners with
    | nil =>
      rw [chipsAt, hloop]
      rfl
    | cons w0 ws =>
      have hne : w0 ≠ w := fun he => h (he ▸ List.mem_cons_self _ _)
      rw [chipsAt, addChipsAt_getElem?_ne _ _ _ _ hne, hloop]
      rfl
  · rw [if_neg hpos, chipsAt, hloop]
    rfl

theorem distributePot_winner (seats : List (Option Seat)) (amount : Int)
    (winners : List Nat) (hnd : winners.Nodup) (w : Nat) (hw : w ∈ winners)
    (s : Seat) (hs : seats[w]? = some (some s)) :
    chipsAt (distributePot seats amount winners) w
      = some (s.chips + amount.fdiv (winners.length : Int)
          + (if winners.head? = some w then
               amount - amount.fdiv (winners.length : Int) * (winners.length : Int)
             else 0)) := by
  cases winners with
  | nil => exact absurd hw (List.not_mem_nil w)
  | cons w0 ws =>
    have hn0 : ((w0 :: ws).length : Int) ≠ 0 := by
      have : (w0 :: ws).length = ws.length + 1 := rfl
      rw [this]
      push_cast
      omega
    have hfd : amount.fdiv ((w0 :: ws).length : Int)
        = amount / ((w0 :: ws).length : Int) :=
      Int.fdiv_eq_ediv _ (by positivity)
    have hleft : amount - amount.fdiv ((w0 :: ws).length : Int) * ((w0 :: ws).length : Int)
        = amount % ((w0 :: ws).length : Int) := by
      rw [hfd, Int.emod_def]
      ring
    have hleftnn :
        0 ≤ amount - amount.fdiv ((w0 :: ws).length : Int) * ((w0 :: ws).length : Int) := by
      rw [hleft]
      exact Int.emod_nonneg _ hn0
    have hloop := (creditLoop_getElem? (amount.fdiv ((w0 :: ws).length : Int))
      (w0 :: ws) seats w).2 hnd hw s hs
    rw [distributePot_eq]
    by_cases hpos :
        0 < amount - amount.fdiv ((w0 :: ws).length : Int) * ((w0 :: ws).length : Int)
    · rw [if_pos hpos]
      rcases List.mem_cons.mp hw with rfl | hmw
      · rw [chipsAt,
          addChipsAt_getElem?_self _ w
            (amount - amount.fdiv ((w :: ws).length : Int) * ((w :: ws).length : Int))
            _ hloop]
        simp
      · obtain ⟨hxnot, -⟩ := List.nodup_cons.mp hnd
        have hne : w0 ≠ w := fun he => hxnot (he ▸ hmw)
        have hhd : ¬((w0 :: ws).head? = some w) := by
          simp only [List.head?_cons, Option.some.injEq]
          exact hne
        rw [chipsAt, addChipsAt_getElem?_ne _ _ _ _ hne, hloop, if_neg hhd]
        simp
    · rw [if_neg hpos]
      have hzero :
          amount - amount.fdiv ((w0 :: ws).length : Int) * ((w0 :: ws).length : Int) = 0 := by
        omega
      rw [chipsAt, hloop]
      rcases List.mem_cons.mp hw with rfl | hmw
      · rw [if_pos (show (w :: ws).head? = some w from rfl), hzero]
        simp
      · obtain ⟨hxnot, -⟩ := List.nodup_cons.mp hnd
        have hne : w0 ≠ w := fun he => hxnot (he ▸ hmw)
        have hhd : ¬((w0 :: ws).head? = some w) := by
          simp only [List.head?_cons, Option.some.injEq]
          exact hne
        rw [if_neg hhd]
        simp

theorem seatsChips_zeroBets (t : Table) :
    seatsChips { t with
      seats := t.seats.map (Option.map (fun s : Seat => { s with currentBet := 0 })) }
      = seatsChips t := by
  simp only [seatsChips, List.map_map]
  apply List.map_congr_left
  intro o _
  cases o <;> rfl

theorem dealCommunity_fields : ∀ (k : Nat) (t : Table),
    (dealCommunity t k).stage = t.stage ∧ (dealCommunity t k).pot = t.pot ∧
    (dealCommunity t k).seats = t.seats ∧
    (dealCommunity t k).community.length = t.community.length + k := by
  intro k
  induction k with
  | zero => intro t; exact ⟨rfl, rfl, rfl, rfl⟩
  | succ n ih =>
    intro t
    have hstep : dealCommunity t (n + 1) =
        (let acc := dealCommunity t n
         let c := acc.deck.getLastD ⟨0, .s⟩
         { acc with deck := acc.deck.dropLast, community := acc.community ++ [c] }) := by
      unfold dealCommunity
      rw [List.range_succ, List.foldl_append]
      rfl
    obtain ⟨h1, h2, h3, h4⟩ := ih t
    rw [hstep]
    refine ⟨h1, h2, h3, ?_⟩
    simp only [List.length_append, h4, List.length_cons, List.length_nil]
    omega

theorem postStreetSetup_fields (t : Table) :
    (postStreetSetup t).stage = t.stage ∧ (postStreetSetup t).pot = t.pot ∧
    (postStreetSetup t).seats = t.seats ∧
    (postStreetSetup t).community = t.community :=
  ⟨rfl, rfl, rfl, rfl⟩

theorem advanceStage_preflop (t : Table) (h : t.stage = .preflop) :
    (advanceStage t).stage = .flop ∧ (advanceStage t).pot = t.pot ∧
    (advanceStage t).community.length = t.community.length + 3 ∧
    seatsChips (advanceStage t) = seatsChips t := by
  have ht0 : ({ t with
      seats := t.seats.map (Option.map (fun s : Seat => { s with currentBet := 0 })) } :
      Table).stage = Stage.preflop := h
  unfold advanceStage
  rw [ht0]
  set t0 : Table := { t with
    seats := t.seats.map (Option.map (fun s : Seat => { s with currentBet := 0 })) } with ht0def
  obtain ⟨hd1, hd2, hd3, hd4⟩ := dealCommunity_fields 3 t0
  refine ⟨rfl, ?_, ?_, ?_⟩
  · exact hd2
  · exact hd4
  · show seatsChips (postStreetSetup { dealCommunity t0 3 with stage := Stage.flop }) = _
    have : seatsChips (postStreetSetup { dealCommunity t0 3 with stage := Stage.flop })
        = seatsChips t0 := by
      simp only [seatsChips]
      rw [show (postStreetSetup { dealCommunity t0 3 with stage := Stage.flop }).seats
        = (dealCommunity t0 3).seats from rfl, hd3]
    rw [this, ht0def]
    exact seatsChips_zeroBets t

theorem seatsChips_foldApplied (t : Table) (i : Int) (s : Seat)
    (hseat : seatAt t.seats i = some s) :
    seatsChips (foldApplied t i s) = seatsChips t := by
  unfold seatAt at hseat
  by_cases hi : 0 ≤ i
  · rw [if_pos hi] at hseat
    have hsome : t.seats[i.toNat]? = some (some s) := by
      cases hx : t.seats[i.toNat]? with
      | none => rw [hx] at hseat; simp at hseat
      | some os => rw [hx] at hseat; simp at hseat; rw [hseat]
    simp only [seatsChips, foldApplied, setSeatAt, if_pos hi]
    apply List.ext_getElem?
    intro n
    by_cases hn : i.toNat = n
    · subst hn
      obtain ⟨hlt, hget⟩ := List.getElem?_eq_some_iff.mp hsome
      rw [List.getElem?_map, List.getElem?_map,
        List.getElem?_set_eq_of_lt _ hlt, hsome]
      rfl
    · rw [List.getElem?_map, List.getElem?_map, List.getElem?_set_ne hn]
  · simp only [seatsChips, foldApplied, setSeatAt, if_neg hi]

theorem isBettingRoundComplete_turnIndex (t : Table) (x : Int) :
    isBettingRoundComplete { t with currentTurnIndex := x } = isBettingRoundComplete t :=
  rfl

/-- Fields of `foldApplied` other than `seats` are untouched. -/
theorem foldApplied_fields (t : Table) (i : Int) (s : Seat) :
    (foldApplied t i s).stage = t.stage ∧ (foldApplied t i s).pot = t.pot ∧
    (foldApplied t i s).community = t.community :=
  ⟨rfl, rfl, rfl⟩

/-- C4 (amended): when a legal preflop fold leaves the betting round complete
(in particular when exactly one seat remains unfolded), the engine does NOT
skip to showdown: it advances exactly one street, dealing the three flop
cards, with the pot and every stack untouched — community cards keep being
dealt for the lone remaining seat. -/
theorem fold_to_lone_player_advances_one_street (t : Table) (i : Int) (s : Seat)
    (hstage : t.stage = Stage.preflop)
    (hseat : seatAt t.seats i = some s)
    (hf : s.folded = false) (ha : s.allIn = false)
    (hturn : t.currentTurnIndex = i)
    (hone : countUnfolded (foldApplied t i s) = 1)
    (hcomp : isBettingRoundComplete (foldApplied t i s) = true) :
    (handleAction t i .fold).stage = Stage.flop ∧
    (handleAction t i .fold).pot = t.pot ∧
    (handleAction t i .fold).community.length = t.community.length + 3 ∧
    seatsChips (handleAction t i .fold) = seatsChips t := by
  have hact : handleAction t i .fold = afterActionAdvance (foldApplied t i s) := by
    unfold handleAction
    rw [hseat]
    simp [hf, ha, hturn]
  set T' := foldApplied t i s with hT'
  have hstage' : T'.stage = Stage.preflop := hstage
  have hchips' : seatsChips T' = seatsChips t := seatsChips_foldApplied t i s hseat
  have hadv : ∀ u : Table, u.stage = Stage.preflop → u.pot = t.pot →
      u.community = t.community → seatsChips u = seatsChips t →
      (advanceStage u).stage = Stage.flop ∧ (advanceStage u).pot = t.pot ∧
      (advanceStage u).community.length = t.community.length + 3 ∧
      seatsChips (advanceStage u) = seatsChips t := by
    intro u h1 h2 h3 h4
    obtain ⟨g1, g2, g3, g4⟩ := advanceStage_preflop u h1
    exact ⟨g1, h2 ▸ g2, by rw [g3, h3], by rw [g4, h4]⟩
  rw [hact]
  simp only [afterActionAdvance]
  by_cases hnext : nextOccupiedFrom T' T'.currentTurnIndex = -1
  · rw [if_pos hnext, if_pos hcomp]
    exact hadv T' hstage' rfl rfl hchips'
  · rw [if_neg hnext]
    have hcomp2 : isBettingRoundComplete
        { T' with currentTurnIndex := nextOccupiedFrom T' T'.currentTurnIndex } = true := hcomp
    rw [if_pos hcomp2]
    exact hadv { T' with currentTurnIndex := nextOccupiedFrom T' T'.currentTurnIndex }
      hstage' rfl rfl hchips'

/-- C10: the public `table_state` payload is oblivious to hole cards, socket
handles and reconnect deadlines — two tables equal everywhere except some
seats' `holeCards`, `socketId` or `reconnectTimeout` broadcast identical
public views. -/
theorem publicView_noninterference (t1 t2 : Table)
    (hid : t1.id = t2.id) (hcomm : t1.community = t2.community) (hpot : t1.pot = t2.pot)
    (hstage : t1.stage = t2.stage) (hcall : t1.currentBetToCall = t2.currentBetToCall)
    (hturn : t1.currentTurnIndex = t2.currentTurnIndex)
    (hdeal : t1.dealerIndex = t2.dealerIndex)
    (hraise : t1.lastRaiseAmount = t2.lastRaiseAmount)
    (hseats : List.Forall₂ SeatPublicAgree t1.seats t2.seats) :
    publicTableState t1 = publicTableState t2 := by
  have hgen : ∀ (l1 l2 : List (Option Seat)), List.Forall₂ SeatPublicAgree l1 l2 →
      l1.map (Option.map publicSeatOf) = l2.map (Option.map publicSeatOf) := by
    intro l1 l2 hf2
    induction hf2 with
    | nil => rfl
    | @cons o1 o2 m1 m2 h _ ih =>
      simp only [List.map_cons, ih, List.cons.injEq, and_true]
      match o1, o2, h with
      | none, none, _ => rfl
      | some s1, some s2, h =>
        obtain ⟨h1, h2, h3, h4, h5, h6, h7⟩ := h
        simp only [Option.map_some', Option.some.injEq, publicSeatOf]
        rw [h1, h2, h3, h4, h5, h6, h7]
  have hmap := hgen t1.seats t2.seats hseats
  simp only [publicTableState, hid, hcomm, hpot, hstage, hcall, hturn, hdeal, hraise, hmap]

/-- C9: during a betting stage, a check by the acting seat whose bet does not
match `currentBetToCall`, or a raise below `max(lastRaiseAmount, BIG_BLIND)`,
leaves the table (hence every seat field, the pot, the stage and the turn
cursor) completely unchanged. -/
theorem handleAction_illegal_noop (t : Table) (i : Int) (s : Seat) (act : PlayerAction)
    (hstage : t.stage = Stage.preflop ∨ t.stage = Stage.flop ∨
      t.stage = Stage.turn ∨ t.stage = Stage.river)
    (hseat : seatAt t.seats i = some s)
    (hf : s.folded = false) (ha : s.allIn = false)
    (hturn : t.currentTurnIndex = i)
    (hillegal : (act = .check ∧ s.currentBet ≠ t.currentBetToCall) ∨
      (∃ amt, act = .raise amt ∧ amt.getD 0 < max t.lastRaiseAmount BIG_BLIND)) :
    handleAction t i act = t := by
  unfold handleAction
  rw [hseat]
  rcases hillegal with ⟨rfl, hne⟩ | ⟨amt, rfl, hlt⟩
  · simp [hf, ha, hturn, hne]
  · simp [hf, ha, hturn, hlt]

/-- C3 (amended): the pots `resolveShowdown` constructs are exactly one pot
per distinct contribution level of the UNFOLDED seats, each of amount
`(level - prev) * |eligible|` with the eligible set exactly the unfolded
seats contributing at least that level; the pot amounts sum to the total
contributed by the unfolded seats only (folded seats' contributions are not
included). -/
theorem sidePot_characterization (t : Table)
    (hnn : ∀ p ∈ activesOf t, 0 ≤ p.2.totalContributed) :
    buildPots (resultsOf t)
      = ((contribLevels (resultsOf t)).zip (0 :: contribLevels (resultsOf t))).map
          (potAtLevel (resultsOf t)) ∧
    ((buildPots (resultsOf t)).map (·.amount)).sum
      = ((activesOf t).map (fun p => p.2.totalContributed)).sum := by
  have hres : ∀ r ∈ resultsOf t, 0 ≤ r.contrib := by
    intro r hr
    obtain ⟨p, hp, rfl⟩ := List.mem_map.mp hr
    exact hnn p hp
  constructor
  · exact buildPotsGo_zip (resultsOf t) (contribLevels (resultsOf t)) 0
  · have hge : ∀ l ∈ contribLevels (resultsOf t), (0 : Int) ≤ l := by
      intro l hl
      obtain ⟨r, hr, rfl⟩ := List.mem_map.mp ((contribLevels_mem _ _).mp hl)
      exact hres r hr
    have hmem : ∀ r ∈ resultsOf t,
        r.contrib ≤ 0 ∨ r.contrib ∈ contribLevels (resultsOf t) := by
      intro r hr
      exact Or.inr ((contribLevels_mem _ _).mpr (List.mem_map_of_mem _ hr))
    rw [buildPots, buildPotsGo_sum (resultsOf t) (contribLevels (resultsOf t)) 0
      (contribLevels_pairwise_lt _) hge hmem]
    rw [show (resultsOf t).map (fun r => max (r.contrib - 0) 0)
        = (resultsOf t).map (fun r => r.contrib) from
      List.map_congr_left (fun r hr => by rw [sub_zero]; exact max_eq_left (hres r hr))]
    rw [resultsOf, List.map_map]
    rfl

/-- C3 witness: the characterization instantiated on the concrete showdown
input `tC3`. -/
theorem sidePot_characterization_witness :
    buildPots (resultsOf tC3)
      = ((contribLevels (resultsOf tC3)).zip (0 :: contribLevels (resultsOf tC3))).map
          (potAtLevel (resultsOf tC3)) ∧
    ((buildPots (resultsOf tC3)).map (·.amount)).sum
      = ((activesOf tC3).map (fun p => p.2.totalContributed)).sum :=
  sidePot_characterization tC3 (by decide)

/-- C3 counterexample: on `tC3` the folded seat contributed 1 chip, so the
pot amounts sum to 2 while the contributions over ALL seats (folded
included) sum to 3 — the claim's equation `Σ pots = Σ totalContributed over
all seats` fails. -/
theorem sidePot_folded_contribution_cex :
    ((buildPots (resultsOf tC3)).map (·.amount)).sum = 2 ∧
    (tC3.seats.map (fun os => ((os.map (·.totalContributed)).getD 0))).sum = 3 ∧
    ((buildPots (resultsOf tC3)).map (·.amount)).sum
      ≠ (tC3.seats.map (fun os => ((os.map (·.totalContributed)).getD 0))).sum := by
  decide

/-- C8: the ace-low wheel.  (i) any five cards of ranks 14,5,4,3,2 with not
all suits equal evaluate to a straight with top rank 5; (ii) the same holds
for every input ordering of a concrete mixed-suit wheel; (iii) the wheel
compares strictly below a 6-high straight; (iv) in the straight detector the
only hand containing an ace that makes a straight is either ace-high
`[14,13,12,11,10]` or the wheel — the wheel is the only case where the ace
counts as low (top rank 5). -/
theorem wheel_straight_spec :
    (∀ s1 s2 s3 s4 s5 : Suit, ¬(s2 = s1 ∧ s3 = s1 ∧ s4 = s1 ∧ s5 = s1) →
      evaluate5 (wheelHand s1 s2 s3 s4 s5) = [4, 5]) ∧
    (∀ l ∈ allOrderings (wheelHand .s .h .d .c .s), evaluate5 l = [4, 5]) ∧
    compareEval (evaluate5 (wheelHand .s .h .d .c .s))
      (evaluate5 [⟨6, .s⟩, ⟨5, .h⟩, ⟨4, .d⟩, ⟨3, .c⟩, ⟨2, .s⟩]) = -1 ∧
    (∀ a b c d e : Nat, b < a → c < b → d < c → e < d → a ≤ 14 →
      14 ∈ [a, b, c, d, e] → (straightInfo [a, b, c, d, e]).1 = true →
      ((straightInfo [a, b, c, d, e]).2 = 14 ∧ [a, b, c, d, e] = [14, 13, 12, 11, 10]) ∨
      ((straightInfo [a, b, c, d, e]).2 = 5 ∧ [a, b, c, d, e] = [14, 5, 4, 3, 2])) := by
  refine ⟨by decide, by decide, by decide, ?_⟩
  intro a b c d e h1 h2 h3 h4 h5 hmem hstraight
  have ha : a = 14 := by
    simp only [List.mem_cons, List.not_mem_nil, or_false] at hmem
    omega
  subst ha
  have heq : straightInfo [14, b, c, d, e] =
      (if 14 == b + 1 && b == c + 1 && c == d + 1 && d == e + 1 then ((true : Bool), 14)
       else if ([14, b, c, d, e] : List Nat) = [14, 5, 4, 3, 2] then (true, 5)
       else (false, 0)) := rfl
  rw [heq] at hstraight ⊢
  by_cases hcons : (14 == b + 1 && b == c + 1 && c == d + 1 && d == e + 1) = true
  · rw [if_pos hcons]
    left
    simp only [Bool.and_eq_true, beq_iff_eq] at hcons
    obtain ⟨⟨⟨hb, hc⟩, hd⟩, he⟩ := hcons
    refine ⟨rfl, ?_⟩
    have hb' : b = 13 := by omega
    have hc' : c = 12 := by omega
    have hd' : d = 11 := by omega
    have he' : e = 10 := by omega
    rw [hb', hc', hd', he']
  · rw [if_neg hcons] at hstraight ⊢
    by_cases hwheel : ([14, b, c, d, e] : List Nat) = [14, 5, 4, 3, 2]
    · rw [if_pos hwheel]
      exact Or.inr ⟨rfl, hwheel⟩
    · rw [if_neg hwheel] at hstraight
      simp at hstraight

/-- C8 witness: the quantified conjuncts instantiated at a concrete
mixed-suit wheel and at the ace-high straight ranks. -/
theorem wheel_straight_spec_witness :
    evaluate5 (wheelHand .s .h .d .c .s) = [4, 5] ∧
    (((straightInfo [14, 13, 12, 11, 10]).2 = 14 ∧
        ([14, 13, 12, 11, 10] : List Nat) = [14, 13, 12, 11, 10]) ∨
      ((straightInfo [14, 13, 12, 11, 10]).2 = 5 ∧
        ([14, 13, 12, 11, 10] : List Nat) = [14, 5, 4, 3, 2])) :=
  ⟨wheel_straight_spec.1 .s .h .d .c .s (by decide),
   wheel_straight_spec.2.2.2 14 13 12 11 10 (by decide) (by decide) (by decide) (by decide)
     (by decide) (by decide) (by decide)⟩

/-- C1 (code bug): replaying seed case S1 — heads-up, stacks 1000/1000,
blinds 1/2, the small blind folds preflop and the hand runs to showdown —
ends with 1999 chips on the table instead of 2000: the folded small blind's
chip is dropped because `resolveShowdown` sizes pots only from unfolded
seats' contributions and then zeroes the pot. -/
theorem chip_conservation_violated :
    chipTotal tS1_seated = 2000 ∧ tS1_final.stage = Stage.waiting ∧
    chipTotal tS1_final = 1999 ∧ chipTotal tS1_final ≠ chipTotal tS1_seated := by
  decide

/-- C2 (code bug): preflop heads-up, the big blind (seat 0) has posted 2 and
has not acted when the small blind merely calls; the engine nevertheless
deals the flop at once — `isBettingRoundComplete` checks only bet equality,
so the big blind's option is denied. -/
theorem bigBlind_option_denied :
    tS1_start.stage = Stage.preflop ∧ tS1_start.currentTurnIndex = 1 ∧
    (seatAt tS1_start.seats 0).map (·.currentBet) = some BIG_BLIND ∧
    (handleAction tS1_start 1 .call).stage = Stage.flop ∧
    (handleAction tS1_start 1 .call).community.length = 3 := by
  decide

/-- C4 counterexample: the fold that leaves exactly one seat unfolded does
NOT proceed directly to showdown resolution; the engine deals the flop,
keeps the pot at 3, and pays nothing out. -/
theorem early_termination_cex :
    countUnfolded (handleAction tS1_start 1 .fold) = 1 ∧
    (handleAction tS1_start 1 .fold).stage = Stage.flop ∧
    (handleAction tS1_start 1 .fold).stage ≠ Stage.waiting ∧
    (handleAction tS1_start 1 .fold).pot = 3 ∧
    (seatAt (handleAction tS1_start 1 .fold).seats 0).map (·.chips) = some 998 := by
  decide

/-- C4 witness: the amended street-advance theorem instantiated on the S1
fold. -/
theorem fold_advances_one_street_witness :
    (handleAction tS1_start 1 .fold).stage = Stage.flop ∧
    (handleAction tS1_start 1 .fold).pot = tS1_start.pot ∧
    (handleAction tS1_start 1 .fold).community.length = tS1_start.community.length + 3 ∧
    seatsChips (handleAction tS1_start 1 .fold) = seatsChips tS1_start :=
  fold_to_lone_player_advances_one_street tS1_start 1 tS1_sbSeat (by decide) (by decide)
    (by decide) (by decide) (by decide) (by decide) (by decide)

/-- C5 counterexample: heads-up with seats 0 and 1 occupied and the dealer
button on seat 0, the dealer posts the BIG blind (2), the other seat posts
the small blind (1) and acts first preflop — the opposite of the claim. -/
theorem headsUp_blinds_cex :
    tS1_start.dealerIndex = 0 ∧
    (seatAt tS1_start.seats tS1_start.dealerIndex).map (·.currentBet) = some BIG_BLIND ∧
    (seatAt tS1_start.seats tS1_start.dealerIndex).map (·.currentBet) ≠ some SMALL_BLIND ∧
    (seatAt tS1_start.seats 1).map (·.currentBet) = some SMALL_BLIND ∧
    tS1_start.currentTurnIndex = 1 ∧
    tS1_start.currentTurnIndex ≠ tS1_start.dealerIndex := by
  decide

/-- C5 (amended): in every heads-up configuration (any two distinct seats of
six, any prior dealer cursor) the first occupied seat after the dealer cursor
posts the small blind and acts first preflop and on the flop; the other seat
posts the big blind; when the dealer cursor is on an occupied seat, the
dealer is the big blind. -/
theorem headsUp_blinds_amended : ∀ (i j : Fin 6), i ≠ j → ∀ p : Fin 7,
    headsUpStartProp i j p := by
  decide

/-- C5 witness: the amended heads-up statement at seats 0 and 1 with the
dealer cursor starting at -1. -/
theorem headsUp_blinds_amended_witness : headsUpStartProp 0 1 0 :=
  headsUp_blinds_amended 0 1 (by decide) 0

/-- C6 (code bug): the `sit` handler accepts a second seat for an identity
that already occupies one — both commands succeed and afterwards seats 0 and
1 both carry pubkey "PK". -/
theorem double_seat_same_identity :
    (sitCommand (mkTable "table-1" 6) "PK" 0 "sockA" false).2 = none ∧
    (sitCommand (sitCommand (mkTable "table-1" 6) "PK" 0 "sockA" false).1
      "PK" 1 "sockB" false).2 = none ∧
    (seatAt (sitCommand (sitCommand (mkTable "table-1" 6) "PK" 0 "sockA" false).1
        "PK" 1 "sockB" false).1.seats 0).bind (·.pubkey) = some "PK" ∧
    (seatAt (sitCommand (sitCommand (mkTable "table-1" 6) "PK" 0 "sockA" false).1
        "PK" 1 "sockB" false).1.seats 1).bind (·.pubkey) = some "PK" := by
  decide

/-- C7 (amended): for every pot, each winner receives
`floor(amount / |winners|)` and the remainder — always between 0 and
`|winners| - 1` — goes to the FIRST winner in the code's winner list
(`winners[0]`), independent of the dealer position; non-winners are
untouched. -/
theorem odd_chip_remainder_to_first_winner (seats : List (Option Seat)) (amount : Int)
    (winners : List Nat) (hnd : winners.Nodup) :
    (∀ w ∈ winners, ∀ s : Seat, seats[w]? = some (some s) →
      chipsAt (distributePot seats amount winners) w
        = some (s.chips + amount.fdiv (winners.length : Int)
            + (if winners.head? = some w then
                 amount - amount.fdiv (winners.length : Int) * (winners.length : Int)
               else 0))) ∧
    (∀ w, w ∉ winners → chipsAt (distributePot seats amount winners) w = chipsAt seats w) :=
  ⟨fun w hw s hs => distributePot_winner seats amount winners hnd w hw s hs,
   fun w hw => distributePot_untouched seats amount winners w hw⟩

/-- C7 witness: pot 201 split between winners at seats 1 and 5 (in list
order) — seat 1 collects 101, seat 5 collects 100, seat 3 is untouched. -/
theorem odd_chip_remainder_witness :
    chipsAt (distributePot tC7.seats 201 [1, 5]) 1 = some 1034 ∧
    chipsAt (distributePot tC7.seats 201 [1, 5]) 5 = some 1033 ∧
    chipsAt (distributePot tC7.seats 201 [1, 5]) 3 = chipsAt tC7.seats 3 := by
  have h := odd_chip_remainder_to_first_winner tC7.seats 201 [1, 5] (by decide)
  refine ⟨?_, ?_, ?_⟩
  · have h1 := h.1 1 (by decide) (testSeat "A" 933 67 false [⟨14, .s⟩, ⟨13, .h⟩]) (by decide)
    rw [h1]
    decide
  · have h5 := h.1 5 (by decide) (testSeat "C" 933 67 false [⟨14, .d⟩, ⟨13, .c⟩]) (by decide)
    rw [h5]
    decide
  · exact h.2 3 (by decide)

/-- C7 counterexample: on `tC7` (dealer at seat 3, pot 201, winners at seats
1 and 5) the winner closest clockwise after the dealer is seat 5, but the
engine gives the odd chip to seat 1 (`winners[0]`): seat 5 ends with 1033,
not 1034. -/
theorem odd_chip_dealer_tiebreak_cex :
    buildPots (resultsOf tC7) = [⟨201, [1, 3, 5]⟩] ∧
    (buildPots (resultsOf tC7)).map (winnersForPot (resultsOf tC7)) = [[1, 5]] ∧
    specClosestWinnerClockwise 3 6 [1, 5] = some 5 ∧
    (seatAt (resolveShowdown tC7).seats 1).map (·.chips) = some 1034 ∧
    (seatAt (resolveShowdown tC7).seats 5).map (·.chips) = some 1033 ∧
    (seatAt (resolveShowdown tC7).seats 5).map (·.chips) ≠ some 1034 := by
  decide

/-- C9 witness: at `tS1_start` the acting small blind owes 1 to call, so a
check is illegal and `handleAction` returns the state unchanged. -/
theorem handleAction_illegal_noop_witness : handleAction tS1_start 1 .check = tS1_start :=
  handleAction_illegal_noop tS1_start 1 tS1_sbSeat .check (Or.inl (by decide)) (by decide)
    (by decide) (by decide) (by decide) (Or.inl ⟨rfl, by decide⟩)

/-- C10 witness: `t10a` and `t10b` differ only in seat 0's hole cards,
socket handle and reconnect deadline, and broadcast identical public
views. -/
theorem publicView_noninterference_witness : publicTableState t10a = publicTableState t10b :=
  publicView_noninterference t10a t10b rfl rfl rfl rfl rfl rfl rfl rfl
    (by
      refine List.Forall₂.cons ?_ (List.Forall₂.cons ?_ List.Forall₂.nil)
      · simp [SeatPublicAgree, testSeat]
      · simp [SeatPublicAgree])

end Poker
